import Mathlib

/-!
Verification of the SOFA → Blender animation toolbox
(`blender_importer.py`, `animation_exporter.py`).

The development shallowly embeds the two Python scripts.  Numeric values are
modelled as rationals (`ℚ`); text lines are modelled as lists of classified
whitespace-separated tokens; Python exceptions are modelled by an explicit
error type threaded through `Except`.
-/

attribute [local semireducible] Rat.mul Rat.inv Rat.add Rat.sub

namespace BT

/-- Python built-in exceptions raised by the scripts.  The source defines no
custom error type; parsing and I/O failures surface as these exceptions. -/
inductive PyErr
  | stopIteration
  | valueError
  | indexError
  | keyError
  | fileNotFound
  | unboundLocal
deriving DecidableEq, Repr

/-- A whitespace-separated token of a monitor-file line, classified by how the
Python numeric conversions treat it: a digit-only string (`isdigit()` true,
both `int()` and `float()` parse it), another `int()`-parseable string
(e.g. a negative integer), a string only `float()` parses (e.g. `0.5`, `1e-3`),
or any other word. -/
inductive Tok
  | digits (n : Nat)
  | intTok (i : Int)
  | floatTok (v : ℚ)
  | word
deriving DecidableEq, Repr

/-- `str.isdigit()`. -/
def Tok.isdigit : Tok → Bool
  | .digits _ => true
  | _ => false

/-- Value of a digit-only token (`int(x)` for a token with `isdigit()` true). -/
def Tok.digitVal : Tok → Nat
  | .digits n => n
  | _ => 0

/-- Python `int(x)`: succeeds on integer-shaped tokens, raises `ValueError`
otherwise. -/
def tokInt : Tok → Except PyErr Int
  | .digits n => .ok (n : Int)
  | .intTok i => .ok i
  | _ => .error .valueError

/-- Python `float(x)`: succeeds on numeric tokens, raises `ValueError`
otherwise. -/
def tokFloat : Tok → Except PyErr ℚ
  | .digits n => .ok (n : ℚ)
  | .intTok i => .ok (i : ℚ)
  | .floatTok v => .ok v
  | .word => .error .valueError

/-- One line of a monitor file: whether the raw line starts with `#`
(`startswith('#')`, used only by `get_recording_info`), and the
whitespace-separated tokens of the stripped line (a blank line has none). -/
structure RawLine where
  comment : Bool
  toks : List Tok
deriving DecidableEq, Repr

deriving instance DecidableEq for Except

/-- `Except.isOk` as used below. -/
def isOkB : Except ε α → Bool
  | .ok _ => true
  | .error _ => false

/-- Sequential, fail-fast mapping of a fallible conversion over a list — the
semantics of a Python list comprehension such as `[float(x) for x in l]`,
which raises at the first failing element. -/
def mapE (f : α → Except PyErr β) : List α → Except PyErr (List β)
  | [] => .ok []
  | x :: xs =>
    match f x with
    | .error e => .error e
    | .ok y =>
      match mapE f xs with
      | .error e => .error e
      | .ok ys => .ok (y :: ys)

/-- Helper for Python extended slicing `xs[k0::n]` realised as a countdown:
`strideGo n k xs` keeps the element when the countdown hits `0` and resets the
countdown to `n - 1`. -/
def strideGo (n : Nat) : Nat → List α → List α
  | _, [] => []
  | 0, x :: xs => x :: strideGo n (n - 1) xs
  | k + 1, _ :: xs => strideGo n k xs

/-- Python slice `xs[::n]` for `n ≥ 1`: elements at indices `0, n, 2n, …`. -/
def strideSel (n : Nat) (xs : List α) : List α := strideGo n 0 xs

/-- Python slice `d[s::3]` (used by the deformable de-interleave). -/
def sliceStride3 (s : Nat) (d : List ℚ) : List ℚ := strideSel 3 (d.drop s)

/-- Python `zip` of three lists, truncating to the shortest. -/
def zip3 : List ℚ → List ℚ → List ℚ → List (ℚ × ℚ × ℚ)
  | x :: xs, y :: ys, z :: zs => (x, y, z) :: zip3 xs ys zs
  | _, _, _ => []

/-- One per-timestamp sample of `parse_monitor_file`: for a deformable object a
list of 3-vectors (one per particle), for a rigid object the pair
(position list `d[:3]`, quaternion list `[d[-1]] + d[3:-1]`). -/
inductive Sample
  | deform (parts : List (ℚ × ℚ × ℚ))
  | rigid (pos : List ℚ) (quat : List ℚ)
deriving DecidableEq, Repr

/-- The manifest object kinds (`type` ∈ {static, deformable, rigid}). -/
inductive ObjType
  | static
  | deformable
  | rigid
deriving DecidableEq, Repr

/-- Result triple of `parse_monitor_file`: `(particles_ind, times, data)`. -/
structure ParseOut where
  particles_ind : List Int
  times : List ℚ
  data : List Sample
deriving DecidableEq, Repr

/-- `l2.rsplit(' ', nb)[1:]` on a (single-space separated) line with token list
`toks`: the last `min nb (toks.length - 1)` tokens. -/
def lastTokens (nb : Nat) (toks : List Tok) : List Tok :=
  toks.drop (max (toks.length - nb) 1)

/-- First header line of a monitor file (`f.readline()`; empty if absent). -/
def line1 (file : List RawLine) : List Tok := (file.headD ⟨false, []⟩).toks

/-- Second header line of a monitor file. -/
def line2 (file : List RawLine) : List Tok := ((file.get? 1).getD ⟨false, []⟩).toks

/-- The non-blank data rows of a monitor file:
`[l.strip() for l in data if l.strip()]` after the two header reads. -/
def dataRows (file : List RawLine) : List (List Tok) :=
  ((file.drop 2).map RawLine.toks).filter (· ≠ [])

/-- The rows kept by the downsampling slice `data[::frequency]`. -/
def keptRows (file : List RawLine) (frequency : Nat) : List (List Tok) :=
  strideSel frequency (dataRows file)

/-- Body of the per-row loop of `parse_monitor_file`: extract the timestamp
(`float(l.split(None, 1)[0])`), convert the payload
(`[float(x) for x in l.split()[1:]]`), then regroup it according to the object
kind.  A `static` kind leaves the Python local `parts` unbound, raising
`UnboundLocalError` at `res.append` (the importer never calls it this way). -/
def parseRow (kind : ObjType) (l : List Tok) : Except PyErr (ℚ × Sample) :=
  match l.head? with
  | none => .error .indexError
  | some t0 =>
    match tokFloat t0 with
    | .error e => .error e
    | .ok time =>
      match mapE tokFloat (l.drop 1) with
      | .error e => .error e
      | .ok d =>
        match kind with
        | .deformable =>
          .ok (time, .deform (zip3 (sliceStride3 0 d) (sliceStride3 1 d) (sliceStride3 2 d)))
        | .rigid =>
          if d.isEmpty then .error .indexError
          else .ok (time, .rigid (d.take 3) (d.getLastD 0 :: (d.drop 3).dropLast))
        | .static => .error .unboundLocal

/-- `parse_monitor_file(path, frequency, type)` from `blender_importer.py`,
acting on the file's lines.  Line 1 yields the particle count — the first
digit-only token (`next(int(x) for x in l1.split() if x.isdigit())`,
`StopIteration` when absent).  Line 2 yields the particle indices — its last
`nb_part` tokens passed through `int`.  The remaining non-blank lines are data
rows; every `frequency`-th is kept and parsed by `parseRow`.  The final
`times, data = zip(*res)` raises `ValueError` when no row was kept. -/
def parse_monitor_file (file : List RawLine) (frequency : Nat) (kind : ObjType) :
    Except PyErr ParseOut :=
  match (line1 file).find? Tok.isdigit with
  | none => .error .stopIteration
  | some t =>
    let nb_part := t.digitVal
    match mapE tokInt (lastTokens nb_part (line2 file)) with
    | .error e => .error e
    | .ok particles_ind =>
      if frequency = 0 then .error .valueError
      else
        match mapE (parseRow kind) (keptRows file frequency) with
        | .error e => .error e
        | .ok [] => .error .valueError
        | .ok res => .ok ⟨particles_ind, res.map Prod.fst, res.map Prod.snd⟩

/-- Result of `get_recording_info`. -/
structure RecInfo where
  nb_points : Nat
  step : ℚ
  total_time : ℚ
deriving DecidableEq, Repr

/-- `line.strip().split(None, 1)[0]` followed by `float`: the first token of a
line as a float (`IndexError` on a blank line). -/
def firstTokFloat (l : RawLine) : Except PyErr ℚ :=
  match l.toks.head? with
  | none => .error .indexError
  | some t => tokFloat t

/-- `get_recording_info(path)` from `blender_importer.py`: drop the lines
starting with `#`, then read `total_time` from the last remaining line,
`step` from the first, and count the remaining lines (`IndexError` when none
remain). -/
def get_recording_info (file : List RawLine) : Except PyErr RecInfo :=
  let data := file.filter (fun l => !l.comment)
  match data.getLast?, data.head? with
  | some lastL, some firstL =>
    match firstTokFloat lastL with
    | .error e => .error e
    | .ok total_time =>
      match firstTokFloat firstL with
      | .error e => .error e
      | .ok step => .ok ⟨data.length, step, total_time⟩
  | _, _ => .error .indexError

/-! ## Track building (`add_animation_rigid`, `add_animation_deformable`) -/

/-- Identifier of an animated property (`data_path` of a Blender f-curve). -/
inductive ChannelPath
  | location
  | rotation_quaternion
  | vertexCo (vid : Int)
deriving DecidableEq, Repr

/-- One Blender f-curve as built by the importer: a data path, a component
index, and the keyframe points written by `foreach_set("co", …)` as
(frame, value) pairs. -/
structure FCurve where
  path : ChannelPath
  index : Nat
  keyframes : List (ℚ × ℚ)
deriving DecidableEq, Repr

/-- A Blender action: its list of f-curves in creation order. -/
structure Action where
  fcurves : List FCurve
deriving DecidableEq, Repr

/-- Shortest row length of a list of rows (`0` for no rows) — the truncation
bound of Python `zip(*xss)`. -/
def minLen (xss : List (List α)) : Nat :=
  match xss with
  | [] => 0
  | x :: xs => xs.foldl (fun acc r => min acc r.length) x.length

/-- Python `zip(*xss)`: the transpose truncated to the shortest row.  The
default `d` is only used in an unreachable out-of-bounds lookup. -/
def pyZipStar (d : α) (xss : List (List α)) : List (List α) :=
  (List.range (minLen xss)).map fun i => xss.map fun r => (r.get? i).getD d

/-- `p, q = sample` in the comprehensions of `add_animation_rigid`: a rigid
sample unpacks to its (position, quaternion) pair; a deformable sample (a list
of 3-vectors) unpacks only when it has exactly two elements, and a mixed-kind
sample never reaches this code through the importer. -/
def Sample.unpack2 : Sample → Except PyErr (List ℚ × List ℚ)
  | .rigid p q => .ok (p, q)
  | .deform [a, b] => .ok ([a.1, a.2.1, a.2.2], [b.1, b.2.1, b.2.2])
  | .deform _ => .error .valueError

/-- `xs, ys, zs = zip(*positions)`: unpacking requires exactly three rows. -/
def unpack3 : List (List ℚ) → Except PyErr (List ℚ × List ℚ × List ℚ)
  | [a, b, c] => .ok (a, b, c)
  | _ => .error .valueError

/-- `q0, q1, q2, q3 = zip(*quaternions)`: unpacking requires exactly four
rows. -/
def unpack4 : List (List ℚ) → Except PyErr (List ℚ × List ℚ × List ℚ × List ℚ)
  | [a, b, c, d] => .ok (a, b, c, d)
  | _ => .error .valueError

/-- `tuple(float(i) for i in range(1, n + 1))`: the frame numbers `1 … n`. -/
def framesSeq (n : Nat) : List ℚ := (List.range n).map fun i => ((i + 1 : Nat) : ℚ)

/-- `add_animation_rigid(obj, times, data)`: with no times or no data it
returns without creating an action; otherwise it builds one f-curve per
location component (indices 0–2) and per quaternion component (indices 0–3:
`q0 = w, q1 = x, q2 = y, q3 = z` as produced by the parser), each holding the
interleaved (frame, value) pairs.  `foreach_set` demands enough values to fill
the `n` pre-allocated keyframe points (`ValueError` model when short). -/
def add_animation_rigid (times : List ℚ) (data : List Sample) :
    Except PyErr (Option Action) :=
  if times.isEmpty || data.isEmpty then .ok none
  else
    let n := times.length
    match mapE Sample.unpack2 data with
    | .error e => .error e
    | .ok pairs =>
      let positions := pairs.map Prod.fst
      let quaternions := pairs.map Prod.snd
      match unpack3 (pyZipStar 0 positions) with
      | .error e => .error e
      | .ok (xs, ys, zs) =>
        match unpack4 (pyZipStar 0 quaternions) with
        | .error e => .error e
        | .ok (q0, q1, q2, q3) =>
          let frames := framesSeq n
          if xs.length < n then .error .valueError
          else .ok (some ⟨[
            ⟨.location, 0, List.zip frames xs⟩,
            ⟨.location, 1, List.zip frames ys⟩,
            ⟨.location, 2, List.zip frames zs⟩,
            ⟨.rotation_quaternion, 0, List.zip frames q0⟩,
            ⟨.rotation_quaternion, 1, List.zip frames q1⟩,
            ⟨.rotation_quaternion, 2, List.zip frames q2⟩,
            ⟨.rotation_quaternion, 3, List.zip frames q3⟩]⟩)

/-- Iterating one parsed sample inside `zip(*data)` of
`add_animation_deformable`: a deformable sample iterates over its 3-vectors.
A rigid sample reaching this builder is not meaningful (the importer routes
kinds consistently); it is modelled as an error. -/
def sampleParts : Sample → Except PyErr (List (ℚ × ℚ × ℚ))
  | .deform parts => .ok parts
  | .rigid _ _ => .error .valueError

/-- The three vertex f-curves built by one turn of the loop of
`add_animation_deformable` for `(vertex_id, positions)`. -/
def vertexFCurves (vid : Int) (positions : List (ℚ × ℚ × ℚ)) : List FCurve :=
  let n := positions.length
  let frames := framesSeq n
  [⟨.vertexCo vid, 0, List.zip frames (positions.map fun p => p.1)⟩,
   ⟨.vertexCo vid, 1, List.zip frames (positions.map fun p => p.2.1)⟩,
   ⟨.vertexCo vid, 2, List.zip frames (positions.map fun p => p.2.2)⟩]

/-- `add_animation_deformable(obj, indices, times, data)`: for every
`(vertex_id, positions)` in `zip(indices, zip(*data))` it creates three
f-curves on `vertices[vertex_id].co`, frame-indexed `1 … len(positions)`.
The `times` argument is never read. -/
def add_animation_deformable (indices : List Int) (times : List ℚ)
    (data : List Sample) : Except PyErr Action :=
  match mapE sampleParts data with
  | .error e => .error e
  | .ok parts =>
    let cols := pyZipStar (0, 0, 0) parts
    .ok ⟨(List.zip indices cols).flatMap fun vc => vertexFCurves vc.1 vc.2⟩

/-! ## Scene import (`_process_object`, `import_scene`) -/

/-- One `[[objects]]` block of the TOML manifest.  Optional fields model
`dict.get` with its defaults in `_process_object`. -/
structure ObjConfig where
  mesh : String
  type : ObjType
  name : Option String
  scale : Option (List ℚ)
  translation : Option (List ℚ)
  rotation : Option (List ℚ)
  monitor : Option String
deriving DecidableEq, Repr

/-- The manifest: top-level `frames` and `frequency` scalars and the object
list.  (`frames` is kept as a rational because the fallback value computed by
`import_scene` is a Python float division.) -/
structure Config where
  frames : Option ℚ
  frequency : Option Nat
  objects : List ObjConfig
deriving DecidableEq, Repr

/-- `os.path.join(a, b)` for the relative paths the scripts build. -/
def pathJoin (a b : String) : String := a ++ "/" ++ b

/-- The dictionary returned by `_process_object`: the manifest fields with
their defaults applied, plus — for non-static objects — the parsed monitor
data. -/
structure ProcResult where
  mesh_name : String
  obj_type : ObjType
  scale : List ℚ
  name : Option String
  translation : List ℚ
  rotation : List ℚ
  anim : Option ParseOut
deriving DecidableEq, Repr

/-- `_process_object(config_obj, config_dir, frequency)`: for a non-static
object, read the `monitor` path (`KeyError` when absent), fall back to
`config_dir`-relative resolution when the raw path does not exist, open and
parse it (`FileNotFoundError` when still missing).  The filesystem is the
map `fs` from paths to file lines. -/
def process_object (fs : String → Option (List RawLine)) (config_dir : String)
    (frequency : Nat) (cfg : ObjConfig) : Except PyErr ProcResult :=
  let base : Option ParseOut → ProcResult := fun a =>
    ⟨cfg.mesh, cfg.type, cfg.scale.getD [1, 1, 1], cfg.name,
     cfg.translation.getD [0, 0, 0], cfg.rotation.getD [0, 0, 0], a⟩
  if cfg.type ≠ .static then
    match cfg.monitor with
    | none => .error .keyError
    | some m =>
      let filename := if (fs m).isSome then m else pathJoin config_dir m
      match fs filename with
      | none => .error .fileNotFound
      | some file =>
        match parse_monitor_file file frequency cfg.type with
        | .error e => .error e
        | .ok out => .ok (base (some out))
  else .ok (base none)

/-- The value of `math.radians(x)`, i.e. `x·π/180`.  Since the importer only
stores these values (never computes with them) and `radians` is injective, the
result is represented exactly by its argument in a dedicated type. -/
structure Rad where
  deg : ℚ
deriving DecidableEq, Repr

/-- `math.radians`. -/
def radians (x : ℚ) : Rad := ⟨x⟩

/-- The mutations `import_scene` performs on one Blender object: the fields it
assigns on the object returned by `import_mesh_cached`.  `fromCache` records
whether the mesh datablock came from `_mesh_cache`.  `objAction` is the rigid
action (object-level), `meshAction` the deformable action (mesh-level). -/
structure AppliedObject where
  mesh_name : String
  fromCache : Bool
  scale : List ℚ
  name : Option String
  location : Option (List ℚ)
  rotation_euler : Option (List Rad)
  delta_location : Option (List ℚ)
  delta_rotation_euler : Option (List Rad)
  rotation_mode_quaternion : Bool
  objAction : Option Action
  meshAction : Option Action
deriving DecidableEq, Repr

/-- The sequential apply phase of `import_scene` for one successful worker
result: mesh lookup through `_mesh_cache` (the `cache` list of already loaded
mesh names), transform assignment, and — for animated kinds — track building.
Exceptions here are not caught by the coordinator. -/
def apply_result (cache : List String) (r : ProcResult) :
    Except PyErr (AppliedObject × List String) :=
  let fromCache := cache.contains r.mesh_name
  let cache1 := if fromCache then cache else cache ++ [r.mesh_name]
  let rot := r.rotation.map radians
  let base : AppliedObject :=
    { mesh_name := r.mesh_name, fromCache := fromCache, scale := r.scale,
      name := if (r.name.getD "") ≠ "" then r.name else none,
      location := none, rotation_euler := none,
      delta_location := none, delta_rotation_euler := none,
      rotation_mode_quaternion := false, objAction := none, meshAction := none }
  match r.obj_type with
  | .static =>
    .ok ({ base with location := some r.translation, rotation_euler := some rot }, cache1)
  | .deformable =>
    match r.anim with
    | none => .error .keyError
    | some po =>
      match add_animation_deformable po.particles_ind po.times po.data with
      | .error e => .error e
      | .ok act =>
        .ok ({ base with
                delta_location := some r.translation,
                delta_rotation_euler := some rot,
                meshAction := some act }, cache1)
  | .rigid =>
    match r.anim with
    | none => .error .keyError
    | some po =>
      match add_animation_rigid po.times po.data with
      | .error e => .error e
      | .ok oact =>
        .ok ({ base with
                delta_location := some r.translation,
                delta_rotation_euler := some rot,
                rotation_mode_quaternion := oact.isSome,
                objAction := oact }, cache1)

/-- Fatal outcomes of `import_scene`: `exit(1)` on an empty object list, the
`NameError` when the local `frames` is never assigned, and any uncaught Python
exception outside the worker tasks. -/
inductive ImportError
  | exitNoObjects
  | nameError
  | pyErr (e : PyErr)
deriving DecidableEq, Repr

/-- Observable result of a completed `import_scene` run: the frame range set
by `init_anim`, the objects applied to the scene in application order, and the
number of "Worker failed" skips. -/
structure ImportOutcome where
  frame_start : Int
  frame_end : ℚ
  applied : List AppliedObject
  skipped : Nat
deriving DecidableEq, Repr

/-- The frame-count loop of `import_scene`: scan the objects in manifest order
for the first whose `monitor` key is present and whose raw path exists; run
`get_recording_info` on it and take `config.get('frames', nb_points /
frequency)`.  When no object qualifies the loop falls through and the local
`frames` stays unassigned (`.ok none`). -/
def resolveFrames (fs : String → Option (List RawLine)) (framesField : Option ℚ)
    (frequency : Nat) : List ObjConfig → Except PyErr (Option ℚ)
  | [] => .ok none
  | o :: rest =>
    match o.monitor with
    | none => resolveFrames fs framesField frequency rest
    | some m =>
      match fs m with
      | none => resolveFrames fs framesField frequency rest
      | some file =>
        match get_recording_info file with
        | .error e => .error e
        | .ok info =>
          .ok (some (framesField.getD ((info.nb_points : ℚ) / (frequency : ℚ))))

/-- One step of the result-draining loop of `import_scene`: a worker failure
is logged and skipped (`continue`); a success is applied to the scene, where
an exception would propagate and abort the import. -/
def applyStep (acc : Except ImportError (List AppliedObject × Nat × List String))
    (res : Except PyErr ProcResult) :
    Except ImportError (List AppliedObject × Nat × List String) :=
  match acc with
  | .error e => .error e
  | .ok (objs, skipped, cache) =>
    match res with
    | .error _ => .ok (objs, skipped + 1, cache)
    | .ok r =>
      match apply_result cache r with
      | .error e => .error (.pyErr e)
      | .ok (obj, cache1) => .ok (objs ++ [obj], skipped, cache1)

/-- The worker tasks submitted by `import_scene`: one `_process_object` call
per manifest object, with the coordinator's (hard-coded) frequency. -/
def importTasks (fs : String → Option (List RawLine)) (config_dir : String)
    (frequency : Nat) (config : Config) : List (Except PyErr ProcResult) :=
  config.objects.map (process_object fs config_dir frequency)

/-- `import_scene(config_path, frame_start)` from `blender_importer.py`.
The downsampling stride is the local `frequency = 1`; the manifest's
`frequency` field is never read.  `sched` is the completion order in which
`as_completed` yields the futures, given as a list of task indices
(out-of-range entries select nothing). -/
def import_scene (fs : String → Option (List RawLine)) (config_dir : String)
    (config : Config) (frame_start : Option Int) (sched : List Nat) :
    Except ImportError ImportOutcome :=
  let frequency := 1
  if config.objects.isEmpty then .error .exitNoObjects
  else
    match resolveFrames fs config.frames frequency config.objects with
    | .error e => .error (.pyErr e)
    | .ok none => .error .nameError
    | .ok (some frames) =>
      let fstart : Int := if frame_start.getD 0 ≠ 0 then frame_start.getD 0 else 1
      let tasks := importTasks fs config_dir frequency config
      let results := sched.filterMap fun i => tasks.get? i
      match results.foldl applyStep (.ok ([], 0, [])) with
      | .error e => .error e
      | .ok (objs, skipped, _) => .ok ⟨fstart, frames, objs, skipped⟩

/-! ## Export side (`animation_exporter.py`) -/

/-- One object entry as written into `blenderAnimationConfig['objects']` by
`addObjectConfig` (the SOFA `Monitor`/`RequiredPlugin` components it also
creates are external collaborator calls, not data of the manifest). -/
structure ExportEntry where
  mesh : String
  type : ObjType
  name : String
  scale : List ℚ
  translation : List ℚ
  rotation : List ℚ
  monitor : Option String
deriving DecidableEq, Repr

/-- `addObjectConfig(node, name, template, objectType, meshFilename, …)`:
resolve the mesh path against the prefix directory, falling back to the raw
`meshFilename` when `<path>.obj` does not exist, convert the numeric triples
to floats, and, for a non-static object, record the monitor output path
`outputDir/<name>_x.txt`.  `objExists` models `os.path.exists`. -/
def addObjectConfig (objExists : String → Bool) (outputDir : String)
    (defaultPrefixPath : String) (name : String) (objectType : ObjType)
    (meshFilename : String) (translation rotation scale : List ℚ)
    (prefixPath : Option String) : ExportEntry :=
  let pre := prefixPath.getD defaultPrefixPath
  let path0 := pathJoin pre meshFilename
  let path := if objExists (path0 ++ ".obj") then path0 else meshFilename
  { mesh := path, type := objectType, name := name,
    scale := scale, translation := translation, rotation := rotation,
    monitor := if objectType ≠ .static
               then some (pathJoin outputDir (name ++ "_x.txt")) else none }

/-- `addExportComponentsToNode(name, mechaNode, …)` — the manifest-affecting
core.  `topologyVertexCount` stands for `len(topologyNode.MeshExporter.position.value)`
when a topology node is given (the MeshExporter side effect itself is
external).  The rotation forwarded to `addObjectConfig` is the caller's value
only for static objects and `[0, 0, 0]` otherwise. -/
def addExportComponentsToNode (objExists : String → Bool) (outputDir : String)
    (defaultPrefixPath : String) (name : String) (objectType : ObjType)
    (indices : Option (List Int)) (topologyVertexCount : Option Nat)
    (meshFilename : Option String) (scale translation rotation : List ℚ) :
    Except PyErr ExportEntry :=
  match meshFilename, topologyVertexCount with
  | none, none => .error .valueError
  | _, _ =>
    let mf := meshFilename.getD (outputDir ++ name)
    let verticesCount := if meshFilename.isNone then topologyVertexCount else none
    if objectType ≠ .static ∧ indices = none ∧ verticesCount = none then
      .error .valueError
    else
      .ok (addObjectConfig objExists outputDir defaultPrefixPath name objectType mf
        translation (if objectType = .static then rotation else [0, 0, 0]) scale none)

/-! ## Concrete fixtures (monitor files and manifests used in the witnesses
and counterexamples) -/

/-- A SOFA monitor header line declaring `p` particles (e.g. `# 1 …`). -/
def hdrCount (p : Nat) : RawLine := ⟨true, [.word, .digits p]⟩

/-- A SOFA monitor second header ending in the index list `0 … p-1`. -/
def hdrIdx (p : Nat) : RawLine := ⟨true, .word :: (List.range p).map .digits⟩

/-- A rigid data row: timestamp `t` and payload
`[10, 20, 30, 0.1, 0.2, 0.3, 0.9]` (position xyz then scalar-last
quaternion). -/
def rigidRow (t : Nat) : RawLine :=
  ⟨false, [.digits t, .digits 10, .digits 20, .digits 30,
           .floatTok (1/10), .floatTok (2/10), .floatTok (3/10), .floatTok (9/10)]⟩

/-- A one-particle rigid monitor log with a single data row. -/
def rigidLog1 : List RawLine := [hdrCount 1, hdrIdx 1, rigidRow 0]

/-- A one-particle rigid monitor log with two data rows. -/
def rigidLog2 : List RawLine := [hdrCount 1, hdrIdx 1, rigidRow 0, rigidRow 1]

/-- A one-particle rigid monitor log with three data rows. -/
def rigidLog3 : List RawLine := [hdrCount 1, hdrIdx 1, rigidRow 0, rigidRow 1, rigidRow 2]

/-- A monitor log with both headers but no data rows at all. -/
def emptyLog : List RawLine := [hdrCount 1, hdrIdx 1]

/-- A deformable log declaring 1 particle whose single data row carries a
payload of length 4 — not the declared `3·P = 3`. -/
def badDeformLog : List RawLine :=
  [hdrCount 1, hdrIdx 1, ⟨false, [.digits 0, .digits 1, .digits 2, .digits 3, .digits 4]⟩]

/-- A log whose data row contains a non-numeric payload token. -/
def wordLog : List RawLine :=
  [hdrCount 1, hdrIdx 1, ⟨false, [.digits 0, .word]⟩]

/-- A log whose first header contains no digit-only token. -/
def noDigitLog : List RawLine :=
  [⟨true, [.word, .word]⟩, hdrIdx 1, rigidRow 0]

/-! ## General lemmas about the slicing and mapping combinators -/

theorem strideGo_length (n : Nat) (hn : 1 ≤ n) :
    ∀ (xs : List α) (k : Nat), (strideGo n k xs).length = (xs.length + (n - 1) - k) / n := by
  intro xs
  induction xs with
  | nil =>
    intro k
    simp only [strideGo, List.length_nil]
    rw [Nat.div_eq_of_lt (by omega)]
  | cons a xs ih =>
    intro k
    cases k with
    | zero =>
      simp only [strideGo, List.length_cons, ih (n - 1)]
      have h1 : xs.length + (n - 1) - (n - 1) = xs.length := by omega
      have h2 : xs.length + 1 + (n - 1) - 0 = xs.length + n := by omega
      rw [h1, h2, Nat.add_div_right _ hn]
    | succ k =>
      simp only [strideGo, List.length_cons, ih k]
      have h3 : xs.length + (n - 1) - k = xs.length + 1 + (n - 1) - (k + 1) := by omega
      rw [h3]

theorem strideSel_length (n : Nat) (hn : 1 ≤ n) (xs : List α) :
    (strideSel n xs).length = (xs.length + n - 1) / n := by
  have h := strideGo_length n hn xs 0
  have h2 : xs.length + (n - 1) - 0 = xs.length + n - 1 := by omega
  simpa [strideSel, h2] using h

theorem strideGo_subset (n : Nat) :
    ∀ (xs : List α) (k : Nat) (x : α), x ∈ strideGo n k xs → x ∈ xs := by
  intro xs
  induction xs with
  | nil => intro k x h; simpa [strideGo] using h
  | cons a xs ih =>
    intro k x h
    cases k with
    | zero =>
      simp only [strideGo, List.mem_cons] at h ⊢
      rcases h with h | h
      · exact Or.inl h
      · exact Or.inr (ih _ _ h)
    | succ k =>
      simp only [strideGo] at h
      exact List.mem_cons_of_mem _ (ih _ _ h)

theorem strideSel_subset (n : Nat) (xs : List α) (x : α) (h : x ∈ strideSel n xs) :
    x ∈ xs := strideGo_subset n xs 0 x h

theorem strideSel_head (n : Nat) (x : α) (xs : List α) :
    (strideSel n (x :: xs)).head? = some x := rfl

theorem mapE_ok_length (f : α → Except PyErr β) :
    ∀ (xs : List α) (ys : List β), mapE f xs = .ok ys → ys.length = xs.length := by
  intro xs
  induction xs with
  | nil =>
    intro ys h
    simp only [mapE] at h
    cases h
    rfl
  | cons x xs ih =>
    intro ys h
    simp only [mapE] at h
    split at h
    · exact absurd h (by simp)
    · split at h
      · exact absurd h (by simp)
      · cases h
        simp only [List.length_cons]
        rw [ih _ (by assumption)]

theorem mapE_ok_get (f : α → Except PyErr β) :
    ∀ (xs : List α) (ys : List β), mapE f xs = .ok ys →
      ∀ (i : Nat) (x : α), xs.get? i = some x →
        ∃ y, f x = .ok y ∧ ys.get? i = some y := by
  intro xs
  induction xs with
  | nil => intro ys h i x hx; simp at hx
  | cons a xs ih =>
    intro ys h i x hx
    simp only [mapE] at h
    split at h
    · exact absurd h (by simp)
    · split at h
      · exact absurd h (by simp)
      · cases h
        cases i with
        | zero =>
          simp only [List.get?] at hx
          cases hx
          exact ⟨_, by assumption, rfl⟩
        | succ i =>
          simp only [List.get?] at hx ⊢
          exact ih _ (by assumption) i x hx

theorem mapE_ok_of_forall (f : α → Except PyErr β) :
    ∀ (xs : List α), (∀ x ∈ xs, ∃ y, f x = .ok y) → ∃ ys, mapE f xs = .ok ys := by
  intro xs
  induction xs with
  | nil => intro _; exact ⟨[], rfl⟩
  | cons a xs ih =>
    intro h
    obtain ⟨y, hy⟩ := h a (List.mem_cons_self a xs)
    obtain ⟨ys, hys⟩ := ih fun x hx => h x (List.mem_cons_of_mem a hx)
    exact ⟨y :: ys, by simp only [mapE, hy, hys]⟩

theorem mapE_ok_mem (f : α → Except PyErr β) :
    ∀ (xs : List α) (ys : List β), mapE f xs = .ok ys →
      ∀ y ∈ ys, ∃ x ∈ xs, f x = .ok y := by
  intro xs
  induction xs with
  | nil =>
    intro ys h y hy
    simp only [mapE] at h
    cases h
    simp at hy
  | cons a xs ih =>
    intro ys h y hy
    simp only [mapE] at h
    split at h
    · exact absurd h (by simp)
    · split at h
      · exact absurd h (by simp)
      · cases h
        rcases List.mem_cons.mp hy with hy | hy
        · exact ⟨a, List.mem_cons_self a xs, by subst hy; assumption⟩
        · obtain ⟨x, hx, hfx⟩ := ih _ (by assumption) y hy
          exact ⟨x, List.mem_cons_of_mem a hx, hfx⟩

/-! ## Characterisation of `parse_monitor_file` -/

theorem isOkB_ok (e : Except PyErr α) (h : isOkB e = true) : ∃ y, e = .ok y := by
  cases e with
  | error e => simp [isOkB] at h
  | ok y => exact ⟨y, rfl⟩

/-- `float(tok)` succeeds. -/
def floatOK (t : Tok) : Bool := isOkB (tokFloat t)

/-- A data row the Python loop can process for the given kind: every token is
numeric, and for a rigid row there is at least one payload value (otherwise
`d[-1]` raises `IndexError`). -/
def rowOK (kind : ObjType) (l : List Tok) : Bool :=
  l.all floatOK && (if kind = .rigid then decide (2 ≤ l.length) else true)

/-- The two header lines parse: the first carries a digit-only token and the
trailing tokens of the second all pass `int()`. -/
def headerOK (file : List RawLine) : Bool :=
  match (line1 file).find? Tok.isdigit with
  | none => false
  | some t => isOkB (mapE tokInt (lastTokens t.digitVal (line2 file)))

theorem dataRows_ne (file : List RawLine) (row : List Tok) (h : row ∈ dataRows file) :
    row ≠ [] := by
  have := (List.mem_filter.mp h).2
  simpa using this

theorem parseRow_ok (kind : ObjType) (l : List Tok) (hk : kind ≠ .static)
    (hne : l ≠ []) (hrow : rowOK kind l = true) :
    ∃ y, parseRow kind l = .ok y := by
  obtain ⟨t0, rest, rfl⟩ : ∃ t0 rest, l = t0 :: rest := by
    cases l with
    | nil => exact absurd rfl hne
    | cons a as => exact ⟨a, as, rfl⟩
  simp only [rowOK, List.all_cons, Bool.and_eq_true] at hrow
  obtain ⟨⟨h0, hrest⟩, hlen⟩ := hrow
  obtain ⟨v, hv⟩ := isOkB_ok _ h0
  have hallrest : ∀ x ∈ rest, ∃ y, tokFloat x = .ok y := by
    intro x hx
    exact isOkB_ok _ (List.all_eq_true.mp hrest x hx)
  obtain ⟨d, hd⟩ := mapE_ok_of_forall tokFloat rest hallrest
  have hdl : d.length = rest.length := mapE_ok_length tokFloat rest d hd
  simp only [parseRow, List.head?_cons, List.drop_one, List.tail_cons, hv, hd]
  cases kind with
  | static => exact absurd rfl hk
  | deformable => exact ⟨_, rfl⟩
  | rigid =>
    have h2 : 2 ≤ rest.length + 1 := by
      have := of_decide_eq_true (by simpa using hlen)
      simpa using this
    have : d.isEmpty = false := by
      cases d with
      | nil => simp at hdl; omega
      | cons a as => rfl
    rw [this]
    exact ⟨_, rfl⟩

theorem parse_ok_elim (file : List RawLine) (frequency : Nat) (kind : ObjType)
    (r : ParseOut) (h : parse_monitor_file file frequency kind = .ok r) :
    ∃ res, mapE (parseRow kind) (keptRows file frequency) = .ok res ∧
      res ≠ [] ∧ r.times = res.map Prod.fst ∧ r.data = res.map Prod.snd := by
  simp only [parse_monitor_file] at h
  split at h
  · exact absurd h (by simp)
  · split at h
    · exact absurd h (by simp)
    · split at h
      · exact absurd h (by simp)
      · split at h
        · exact absurd h (by simp)
        · exact absurd h (by simp)
        · rename_i res hne0 hres
          cases h
          exact ⟨_, hres, hne0, rfl, rfl⟩

theorem parse_ok_intro (file : List RawLine) (N : Nat) (kind : ObjType)
    (hk : kind ≠ .static) (hN : 1 ≤ N) (hhead : headerOK file = true)
    (hrows : (dataRows file).all (rowOK kind) = true)
    (hR : 1 ≤ (dataRows file).length) :
    ∃ r, parse_monitor_file file N kind = .ok r ∧
      r.times.length = r.data.length ∧
      r.times.length = ((dataRows file).length + N - 1) / N ∧
      ∃ row0 t s, (dataRows file).head? = some row0 ∧
        parseRow kind row0 = .ok (t, s) ∧
        r.times.head? = some t ∧ r.data.head? = some s := by
  simp only [headerOK] at hhead
  split at hhead
  · exact absurd hhead (by simp)
  · rename_i t hfind
    obtain ⟨inds, hinds⟩ := isOkB_ok _ hhead
    have hallkept : ∀ row ∈ keptRows file N, ∃ y, parseRow kind row = .ok y := by
      intro row hrow
      have hmem : row ∈ dataRows file := strideSel_subset N _ row hrow
      exact parseRow_ok kind row hk (dataRows_ne file row hmem)
        (List.all_eq_true.mp hrows row hmem)
    obtain ⟨res, hres⟩ := mapE_ok_of_forall _ _ hallkept
    have hlen : res.length = (keptRows file N).length := mapE_ok_length _ _ _ hres
    have hklen : (keptRows file N).length = ((dataRows file).length + N - 1) / N :=
      strideSel_length N hN _
    have hpos : 1 ≤ ((dataRows file).length + N - 1) / N := by
      rw [Nat.le_div_iff_mul_le (by omega)]
      omega
    obtain ⟨r0, res1, rfl⟩ : ∃ r0 res1, res = r0 :: res1 := by
      cases res with
      | nil => rw [hklen] at hlen; simp at hlen; omega
      | cons a as => exact ⟨a, as, rfl⟩
    obtain ⟨row0, rows1, hdr⟩ : ∃ row0 rows1, dataRows file = row0 :: rows1 := by
      cases hdrows : dataRows file with
      | nil => rw [hdrows] at hR; simp at hR
      | cons a as => exact ⟨a, as, rfl⟩
    have hkept0 : (keptRows file N).get? 0 = some row0 := by
      have : (keptRows file N).head? = some row0 := by
        rw [keptRows, hdr]; exact strideSel_head N row0 rows1
      cases hk0 : keptRows file N with
      | nil => rw [hk0] at this; simp at this
      | cons a as => rw [hk0] at this; simp at this; simp [this]
    obtain ⟨y0, hy0, hres0⟩ := mapE_ok_get _ _ _ hres 0 row0 hkept0
    refine ⟨⟨inds, (r0 :: res1).map Prod.fst, (r0 :: res1).map Prod.snd⟩, ?_, ?_, ?_, ?_⟩
    · simp only [parse_monitor_file, hfind, hinds]
      rw [if_neg (by omega), hres]
    · simp
    · simpa using hlen.trans hklen
    · refine ⟨row0, y0.1, y0.2, by rw [hdr]; rfl, by simpa using hy0, ?_, ?_⟩
      · simp only [List.get?] at hres0
        cases hres0
        simp
      · simp only [List.get?] at hres0
        cases hres0
        simp

/-! ## Claim C1 -/

/-- C1: for every kept data row of a motion log parsed with kind = Rigid whose
numeric payload `d` has length ≥ 7, `parse_monitor_file` returns position
`d[:3]` (the first 3 payload values) and orientation quaternion
`[d[-1]] + d[3:-1]` (the last payload value followed by the values at offsets
3..len-2).  In particular the payload `[10,20,30, 0.1,0.2,0.3,0.9]` yields
position `(10,20,30)` and quaternion `(w,x,y,z) = (0.9,0.1,0.2,0.3)`, and
`add_animation_rigid` feeds those four components to the
`rotation_quaternion` channels with indices 0..3 in exactly that order. -/
theorem C1_rigid_payload :
    (∀ (file : List RawLine) (N i : Nat) (r : ParseOut) (t0 : Tok) (row : List Tok)
        (time : ℚ) (d : List ℚ),
        parse_monitor_file file N .rigid = .ok r →
        (keptRows file N).get? i = some (t0 :: row) →
        tokFloat t0 = .ok time →
        mapE tokFloat row = .ok d →
        7 ≤ d.length →
        r.times.get? i = some time ∧
        r.data.get? i = some (.rigid (d.take 3) (d.getLastD 0 :: (d.drop 3).dropLast))) ∧
    parse_monitor_file rigidLog1 1 .rigid =
      .ok ⟨[0], [0], [.rigid [10, 20, 30] [9/10, 1/10, 2/10, 3/10]]⟩ ∧
    add_animation_rigid [0] [.rigid [10, 20, 30] [9/10, 1/10, 2/10, 3/10]] =
      .ok (some ⟨[⟨.location, 0, [(1, 10)]⟩, ⟨.location, 1, [(1, 20)]⟩,
                  ⟨.location, 2, [(1, 30)]⟩,
                  ⟨.rotation_quaternion, 0, [(1, 9/10)]⟩,
                  ⟨.rotation_quaternion, 1, [(1, 1/10)]⟩,
                  ⟨.rotation_quaternion, 2, [(1, 2/10)]⟩,
                  ⟨.rotation_quaternion, 3, [(1, 3/10)]⟩]⟩) := by
  refine ⟨?_, by decide, by decide⟩
  intro file N i r t0 row time d hparse hkept htok hmap hlen
  obtain ⟨res, hres, hne, htimes, hdata⟩ := parse_ok_elim file N .rigid r hparse
  obtain ⟨y, hy, hresi⟩ := mapE_ok_get _ _ _ hres i _ hkept
  have hde : d.isEmpty = false := by
    cases d with
    | nil => simp at hlen
    | cons a as => rfl
  simp only [parseRow, List.head?_cons, List.drop_one, List.tail_cons,
    htok, hmap, hde, Bool.false_eq_true, if_false] at hy
  injection hy with hy2
  subst hy2
  constructor
  · rw [htimes, List.get?_map, hresi]; rfl
  · rw [hdata, List.get?_map, hresi]; rfl

/-- C1 witness: the kept row of `rigidLog1` instantiates the rigid payload
rule. -/
theorem C1_rigid_payload_witness :
    (⟨[0], [0], [.rigid [10, 20, 30] [9/10, 1/10, 2/10, 3/10]]⟩ :
        ParseOut).times.get? 0 = some 0 ∧
    (⟨[0], [0], [.rigid [10, 20, 30] [9/10, 1/10, 2/10, 3/10]]⟩ :
        ParseOut).data.get? 0 =
      some (.rigid (([10, 20, 30, 1/10, 2/10, 3/10, 9/10] : List ℚ).take 3)
        (([10, 20, 30, 1/10, 2/10, 3/10, 9/10] : List ℚ).getLastD 0 ::
          (([10, 20, 30, 1/10, 2/10, 3/10, 9/10] : List ℚ).drop 3).dropLast)) :=
  C1_rigid_payload.1 rigidLog1 1 0
    ⟨[0], [0], [.rigid [10, 20, 30] [9/10, 1/10, 2/10, 3/10]]⟩
    (.digits 0)
    [.digits 10, .digits 20, .digits 30, .floatTok (1/10), .floatTok (2/10),
     .floatTok (3/10), .floatTok (9/10)]
    0 [10, 20, 30, 1/10, 2/10, 3/10, 9/10]
    (by decide) (by decide) (by decide) (by decide) (by decide)

/-! ## Claim C2 -/

/-- C2 counterexample: the claim quantifies over every structurally valid
motion log, including one with `rawRowCount = 0`; there
`ceil(rawRowCount / N) = 0`, so the claim demands a successful parse with zero
samples, but the code raises `ValueError` at `times, data = zip(*res)`
(unpacking an empty `zip`). -/
theorem C2_counterexample :
    parse_monitor_file emptyLog 1 .rigid = .error .valueError ∧
    parse_monitor_file emptyLog 1 .deformable = .error .valueError := by decide

/-- C2 (amended): for every motion log with parseable headers, fully numeric
data rows and **at least one** data row, and every stride `N ≥ 1`,
`parse_monitor_file` returns equally many timestamps and samples, the common
length being `ceil(rawRowCount / N)` (written `(rawRowCount + N - 1) / N` in
natural division), and data row 0 is always among the kept rows: the first
returned timestamp/sample pair is the parse of row 0. -/
theorem C2_downsample_counts (file : List RawLine) (N : Nat) (kind : ObjType)
    (hk : kind ≠ .static) (hN : 1 ≤ N) (hhead : headerOK file = true)
    (hrows : (dataRows file).all (rowOK kind) = true)
    (hR : 1 ≤ (dataRows file).length) :
    ∃ r, parse_monitor_file file N kind = .ok r ∧
      r.times.length = r.data.length ∧
      r.times.length = ((dataRows file).length + N - 1) / N ∧
      ∃ row0 t s, (dataRows file).head? = some row0 ∧
        parseRow kind row0 = .ok (t, s) ∧
        r.times.head? = some t ∧ r.data.head? = some s :=
  parse_ok_intro file N kind hk hN hhead hrows hR

/-- C2 witness: the three-row rigid log downsampled with stride 2 keeps
`ceil(3/2) = 2` rows, row 0 first. -/
theorem C2_downsample_counts_witness :
    ∃ r, parse_monitor_file rigidLog3 2 .rigid = .ok r ∧
      r.times.length = r.data.length ∧
      r.times.length = ((dataRows rigidLog3).length + 2 - 1) / 2 ∧
      ∃ row0 t s, (dataRows rigidLog3).head? = some row0 ∧
        parseRow .rigid row0 = .ok (t, s) ∧
        r.times.head? = some t ∧ r.data.head? = some s :=
  C2_downsample_counts rigidLog3 2 .rigid (by decide) (by decide) (by decide)
    (by decide) (by decide)

/-! ## Observers on import results (used by witnesses and counterexamples) -/

/-- Mesh names of the objects a completed import applied, in application
order (`none` when the import aborted). -/
def appliedMeshes (res : Except ImportError ImportOutcome) : Option (List String) :=
  match res with
  | .ok out => some (out.applied.map fun o => o.mesh_name)
  | .error _ => none

/-- Number of "Worker failed" skips of a completed import. -/
def skippedCount (res : Except ImportError ImportOutcome) : Option Nat :=
  match res with
  | .ok out => some out.skipped
  | .error _ => none

/-- The `frame_end` a completed import handed to `init_anim`. -/
def frameEndOf (res : Except ImportError ImportOutcome) : Option ℚ :=
  match res with
  | .ok out => some out.frame_end
  | .error _ => none

/-- The keyframe count of every f-curve of every applied object (object-level
rigid actions followed by mesh-level deformable actions, per object). -/
def keyframeCounts (res : Except ImportError ImportOutcome) : Option (List Nat) :=
  match res with
  | .ok out => some (out.applied.flatMap fun o =>
      (o.objAction.elim [] fun a => a.fcurves.map fun fc => fc.keyframes.length) ++
      (o.meshAction.elim [] fun a => a.fcurves.map fun fc => fc.keyframes.length))
  | .error _ => none

/-! ## Claim C3 -/

/-- C3 counterexample: a kept Deformable data row whose payload length (4)
differs from `3·P = 3` does **not** produce any error: the stride-3
de-interleave `zip(*(d[s::3] …))` silently truncates to one 3-vector, the
fourth value is dropped, and no check against the declared particle count is
made — `parse_monitor_file` returns a record built from the wrong-length
payload, contradicting the claimed FormatError. -/
theorem C3_counterexample :
    parse_monitor_file badDeformLog 1 .deformable =
      .ok ⟨[0], [0], [.deform [(1, 2, 3)]]⟩ := by decide

/-- C3 (amended): the failing inputs do fail, but with bare Python exceptions
that carry no line number — an empty file or a first header without a
digit-only token raise `StopIteration` from the particle-count generator, and
a non-numeric payload token raises `ValueError` from `float` — while a kept
Deformable row whose payload length differs from `3·P` is not rejected at
all: the payload is silently regrouped into `floor(len/3)` 3-vectors. -/
theorem C3_failure_modes :
    (∀ (freq : Nat) (kind : ObjType),
        parse_monitor_file [] freq kind = .error .stopIteration) ∧
    (∀ (file : List RawLine) (freq : Nat) (kind : ObjType),
        (line1 file).find? Tok.isdigit = none →
        parse_monitor_file file freq kind = .error .stopIteration) ∧
    parse_monitor_file wordLog 1 .rigid = .error .valueError ∧
    parse_monitor_file wordLog 1 .deformable = .error .valueError ∧
    parse_monitor_file badDeformLog 1 .deformable =
      .ok ⟨[0], [0], [.deform [(1, 2, 3)]]⟩ := by
  refine ⟨fun freq kind => rfl, ?_, by decide, by decide, by decide⟩
  intro file freq kind hfind
  simp only [parse_monitor_file, hfind]

/-- C3 witness: a log whose first header has no digit-only token raises
`StopIteration`. -/
theorem C3_failure_modes_witness :
    parse_monitor_file noDigitLog 1 .rigid = .error .stopIteration :=
  C3_failure_modes.2.1 noDigitLog 1 .rigid (by decide)

/-! ## Claim C4 -/

/-- A second header-only log (two header lines, no data rows). -/
def emptyLog2 : List RawLine := [hdrCount 2, ⟨true, [.word, .digits 0, .digits 1]⟩]

/-- Two-object manifest whose second object's monitor log has no data rows. -/
def c4fs : String → Option (List RawLine) := fun s =>
  if s = "good" then some rigidLog1 else if s = "nodata" then some emptyLog else none

def c4cfg : Config :=
  ⟨none, none,
   [⟨"mGood", .rigid, none, none, none, none, some "good"⟩,
    ⟨"mEmpty", .rigid, none, none, none, none, some "nodata"⟩]⟩

/-- C4: the claim is the intent (the rigid track builder even guards
`if not times or not data: return`, returning an empty track set), but the
parser never delivers a zero-sample record: on a log whose headers are present
but which has no data rows, `times, data = zip(*res)` unpacks an empty zip and
raises `ValueError`.  At import the worker exception is caught and the object
is skipped entirely — no static transform is applied, unlike the claimed
NoSamples handling.  The conjuncts: (1) the track builder does return no
tracks and no failure on an empty record; (2) any log with parseable headers
and no data rows makes `parse_monitor_file` raise `ValueError`; (3–4) on a
two-object manifest whose second log is header-only, only the first object is
applied and exactly one skip is reported. -/
theorem C4_empty_recording :
    (∀ data : List Sample, add_animation_rigid [] data = .ok none) ∧
    (∀ (file : List RawLine) (N : Nat) (kind : ObjType),
        headerOK file = true → dataRows file = [] → 1 ≤ N →
        parse_monitor_file file N kind = .error .valueError) ∧
    appliedMeshes (import_scene c4fs "" c4cfg none [0, 1]) = some ["mGood"] ∧
    skippedCount (import_scene c4fs "" c4cfg none [0, 1]) = some 1 := by
  refine ⟨fun data => rfl, ?_, by decide, by decide⟩
  intro file N kind hhead hrows hN
  simp only [headerOK] at hhead
  split at hhead
  · exact absurd hhead (by simp)
  · rename_i t hfind
    obtain ⟨inds, hinds⟩ := isOkB_ok _ hhead
    have hkept : keptRows file N = [] := by
      rw [keptRows, hrows]
      cases N with
      | zero => rfl
      | succ n => rfl
    simp only [parse_monitor_file, hfind, hinds, hkept]
    rw [if_neg (by omega)]
    rfl

/-- C4 witness: a header-only log with stride 3 raises `ValueError`. -/
theorem C4_empty_recording_witness :
    parse_monitor_file emptyLog2 3 .deformable = .error .valueError :=
  C4_empty_recording.2.1 emptyLog2 3 .deformable (by decide) (by decide) (by decide)

/-! ## Lemmas about the track builders -/

theorem foldl_min_const (c : Nat) :
    ∀ (xs : List (List α)), (∀ x ∈ xs, x.length = c) →
      xs.foldl (fun acc r => min acc r.length) c = c := by
  intro xs
  induction xs with
  | nil => intro _; rfl
  | cons a as ih =>
    intro h
    simp only [List.foldl_cons]
    rw [h a (List.mem_cons_self a as), Nat.min_self]
    exact ih fun x hx => h x (List.mem_cons_of_mem a hx)

theorem minLen_const (xss : List (List α)) (c : Nat)
    (h : ∀ x ∈ xss, x.length = c) (hne : xss ≠ []) : minLen xss = c := by
  obtain ⟨x, xs, rfl⟩ : ∃ x xs, xss = x :: xs := by
    cases xss with
    | nil => exact absurd rfl hne
    | cons a as => exact ⟨a, as, rfl⟩
  simp only [minLen]
  rw [h x (List.mem_cons_self _ _)]
  exact foldl_min_const c xs fun r hr => h r (List.mem_cons_of_mem x hr)

theorem pyZipStar_three (d : α) (xss : List (List α)) (h : minLen xss = 3) :
    pyZipStar d xss = [xss.map fun r => (r.get? 0).getD d,
                       xss.map fun r => (r.get? 1).getD d,
                       xss.map fun r => (r.get? 2).getD d] := by
  simp only [pyZipStar, h]
  rfl

theorem pyZipStar_four (d : α) (xss : List (List α)) (h : minLen xss = 4) :
    pyZipStar d xss = [xss.map fun r => (r.get? 0).getD d,
                       xss.map fun r => (r.get? 1).getD d,
                       xss.map fun r => (r.get? 2).getD d,
                       xss.map fun r => (r.get? 3).getD d] := by
  simp only [pyZipStar, h]
  rfl

theorem pyZipStar_mem_length (d : α) (xss : List (List α)) (c : List α)
    (h : c ∈ pyZipStar d xss) : c.length = xss.length := by
  simp only [pyZipStar, List.mem_map] at h
  obtain ⟨i, _, rfl⟩ := h
  simp

theorem framesSeq_length (n : Nat) : (framesSeq n).length = n := by
  simp [framesSeq]

/-! ## Claim C5 -/

/-- Normal form of the action `add_animation_rigid` builds from the unpacked
(position, quaternion) pairs: the seven channels with their zipped keyframe
arrays (proof-side abbreviation). -/
def rigidChannels (times : List ℚ) (pairs : List (List ℚ × List ℚ)) : Action :=
  ⟨[⟨.location, 0, List.zip (framesSeq times.length)
      ((pairs.map Prod.fst).map fun r => (r.get? 0).getD 0)⟩,
    ⟨.location, 1, List.zip (framesSeq times.length)
      ((pairs.map Prod.fst).map fun r => (r.get? 1).getD 0)⟩,
    ⟨.location, 2, List.zip (framesSeq times.length)
      ((pairs.map Prod.fst).map fun r => (r.get? 2).getD 0)⟩,
    ⟨.rotation_quaternion, 0, List.zip (framesSeq times.length)
      ((pairs.map Prod.snd).map fun r => (r.get? 0).getD 0)⟩,
    ⟨.rotation_quaternion, 1, List.zip (framesSeq times.length)
      ((pairs.map Prod.snd).map fun r => (r.get? 1).getD 0)⟩,
    ⟨.rotation_quaternion, 2, List.zip (framesSeq times.length)
      ((pairs.map Prod.snd).map fun r => (r.get? 2).getD 0)⟩,
    ⟨.rotation_quaternion, 3, List.zip (framesSeq times.length)
      ((pairs.map Prod.snd).map fun r => (r.get? 3).getD 0)⟩]⟩

/-- C5: for every well-formed motion record with `K ≥ 1` samples, the track
builders produce, for every channel, keyframes whose frame numbers are exactly
the sequence `1, 2, …, K` (`framesSeq K`) in increasing order, independent of
the recorded timestamp values — `add_animation_rigid` builds its 7 channels
frame-indexed from `range(1, n+1)` with `n = len(times)`, and
`add_animation_deformable` frame-indexes every vertex channel by the sample
count alone, never reading `times` at all. -/
theorem C5_uniform_frame_numbers :
    (∀ (times : List ℚ) (data : List Sample) (K : Nat),
        1 ≤ K → times.length = K → data.length = K →
        (∀ s ∈ data, ∃ p q, s = .rigid p q ∧ p.length = 3 ∧ q.length = 4) →
        ∃ act, add_animation_rigid times data = .ok (some act) ∧
          act.fcurves.length = 7 ∧
          ∀ fc ∈ act.fcurves, fc.keyframes.map Prod.fst = framesSeq K) ∧
    (∀ (indices : List Int) (times : List ℚ) (data : List Sample) (K : Nat),
        1 ≤ K → data.length = K →
        (∀ s ∈ data, ∃ parts, s = .deform parts) →
        ∃ act, add_animation_deformable indices times data = .ok act ∧
          ∀ fc ∈ act.fcurves, fc.keyframes.map Prod.fst = framesSeq K) := by
  constructor
  · intro times data K hK hT hD hrigid
    have hTne : times.isEmpty = false := by
      cases times with
      | nil => simp at hT; omega
      | cons a as => rfl
    have hDne : data.isEmpty = false := by
      cases data with
      | nil => simp at hD; omega
      | cons a as => rfl
    have hall : ∀ s ∈ data, ∃ y, Sample.unpack2 s = .ok y := by
      intro s hs
      obtain ⟨p, q, rfl, hp, hq⟩ := hrigid s hs
      exact ⟨(p, q), rfl⟩
    obtain ⟨pairs, hpairs⟩ := mapE_ok_of_forall _ _ hall
    have hplen : pairs.length = data.length := mapE_ok_length _ _ _ hpairs
    have hpairmem : ∀ pr ∈ pairs, pr.1.length = 3 ∧ pr.2.length = 4 := by
      intro pr hpr
      obtain ⟨s, hs, hok⟩ := mapE_ok_mem _ _ _ hpairs pr hpr
      obtain ⟨p, q, rfl, hp, hq⟩ := hrigid s hs
      simp only [Sample.unpack2] at hok
      injection hok with h2
      subst h2
      exact ⟨hp, hq⟩
    have hpne : pairs ≠ [] := by
      intro hcon
      rw [hcon] at hplen
      simp at hplen
      omega
    have hmin3 : minLen (pairs.map Prod.fst) = 3 := by
      refine minLen_const _ 3 ?_ (by simpa using hpne)
      intro x hx
      obtain ⟨pr, hpr, rfl⟩ := List.mem_map.mp hx
      exact (hpairmem pr hpr).1
    have hmin4 : minLen (pairs.map Prod.snd) = 4 := by
      refine minLen_const _ 4 ?_ (by simpa using hpne)
      intro x hx
      obtain ⟨pr, hpr, rfl⟩ := List.mem_map.mp hx
      exact (hpairmem pr hpr).2
    have hcollen : ∀ (j : Nat),
        ((pairs.map Prod.fst).map fun r => (r.get? j).getD (0:ℚ)).length = K := by
      intro j
      simp [hplen, hD]
    have hcollen2 : ∀ (j : Nat),
        ((pairs.map Prod.snd).map fun r => (r.get? j).getD (0:ℚ)).length = K := by
      intro j
      simp [hplen, hD]
    refine ⟨rigidChannels times pairs, ?_, rfl, ?_⟩
    · simp only [add_animation_rigid, hTne, hDne, Bool.or_self, Bool.false_eq_true,
        if_false, hpairs, pyZipStar_three (0:ℚ) _ hmin3, pyZipStar_four (0:ℚ) _ hmin4,
        unpack3, unpack4]
      rw [if_neg (by rw [hcollen 0, hT]; omega)]
      rfl
    · intro fc hfc
      have hzip : ∀ (vals : List ℚ), vals.length = K →
          (List.zip (framesSeq times.length) vals).map Prod.fst = framesSeq K := by
        intro vals hv
        rw [hT]
        exact List.map_fst_zip _ _ (by rw [framesSeq_length, hv])
      simp only [rigidChannels, List.mem_cons, List.not_mem_nil, or_false] at hfc
      rcases hfc with h | h | h | h | h | h | h <;>
        (subst h; exact hzip _ (by first | exact hcollen _ | exact hcollen2 _))
  · intro indices times data K hK hD hdef
    have hall : ∀ s ∈ data, ∃ y, sampleParts s = .ok y := by
      intro s hs
      obtain ⟨parts, rfl⟩ := hdef s hs
      exact ⟨parts, rfl⟩
    obtain ⟨parts, hparts⟩ := mapE_ok_of_forall _ _ hall
    have hplen : parts.length = data.length := mapE_ok_length _ _ _ hparts
    refine ⟨⟨(List.zip indices (pyZipStar ((0:ℚ), (0:ℚ), (0:ℚ)) parts)).flatMap
        fun vc => vertexFCurves vc.1 vc.2⟩, ?_, ?_⟩
    · simp only [add_animation_deformable, hparts]
    · intro fc hfc
      simp only [List.mem_flatMap] at hfc
      obtain ⟨vc, hvc, hfcmem⟩ := hfc
      have hcol : vc.2 ∈ pyZipStar ((0:ℚ), (0:ℚ), (0:ℚ)) parts := by
        have := List.mem_zip (by exact hvc)
        exact this.2
      have hlen : vc.2.length = K := by
        rw [pyZipStar_mem_length _ _ _ hcol, hplen, hD]
      simp only [vertexFCurves, List.mem_cons, List.not_mem_nil, or_false] at hfcmem
      rcases hfcmem with h | h | h <;>
        (subst h
         rw [hlen]
         refine List.map_fst_zip _ _ ?_
         simp [framesSeq_length, hlen])

/-- C5 witness: a two-sample rigid record and a two-sample single-vertex
deformable record both produce channels keyframed exactly at frames 1, 2. -/
theorem C5_uniform_frame_numbers_witness :
    (∃ act, add_animation_rigid [0, 5]
        [.rigid [1, 2, 3] [1, 0, 0, 0], .rigid [4, 5, 6] [0, 1, 0, 0]] =
          .ok (some act) ∧
      act.fcurves.length = 7 ∧
      ∀ fc ∈ act.fcurves, fc.keyframes.map Prod.fst = framesSeq 2) ∧
    (∃ act, add_animation_deformable [7] [0, 5]
        [.deform [(1, 2, 3)], .deform [(4, 5, 6)]] = .ok act ∧
      ∀ fc ∈ act.fcurves, fc.keyframes.map Prod.fst = framesSeq 2) :=
  ⟨C5_uniform_frame_numbers.1 [0, 5]
      [.rigid [1, 2, 3] [1, 0, 0, 0], .rigid [4, 5, 6] [0, 1, 0, 0]] 2
      (by decide) (by decide) (by decide)
      (by intro s hs
          simp only [List.mem_cons, List.not_mem_nil, or_false] at hs
          rcases hs with h | h <;> subst h
          · exact ⟨[1, 2, 3], [1, 0, 0, 0], rfl, by decide, by decide⟩
          · exact ⟨[4, 5, 6], [0, 1, 0, 0], rfl, by decide, by decide⟩),
   C5_uniform_frame_numbers.2 [7] [0, 5]
      [.deform [(1, 2, 3)], .deform [(4, 5, 6)]] 2 (by decide) (by decide)
      (by intro s hs
          simp only [List.mem_cons, List.not_mem_nil, or_false] at hs
          rcases hs with h | h <;> subst h
          · exact ⟨[(1, 2, 3)], rfl⟩
          · exact ⟨[(4, 5, 6)], rfl⟩)⟩

/-! ## Claim C6 -/

/-- Single rigid object whose manifest sets `frequency = 2` and whose monitor
log has two data rows. -/
def c6fs : String → Option (List RawLine) := fun s =>
  if s = "m6" then some rigidLog2 else none

def c6cfg : Config :=
  ⟨none, some 2, [⟨"mesh6", .rigid, none, none, none, none, some "m6"⟩]⟩

/-- C6: the manifest's `frequency` field is **not** the stride used during
the import: `import_scene` hard-codes the local `frequency = 1` and never reads
the field.  Conjunct 1: two manifests differing only in `frequency` import
identically.  Conjuncts 2–3: with `frequency = 2` and a two-row recording the
claim predicts `ceil(2/2) = 1` keyframe per channel and an inferred frame
count of `2/2 = 1`, but the import produces 2 keyframes on each of the 7
channels and a frame count of 2. -/
theorem C6_frequency_ignored :
    (∀ (fs : String → Option (List RawLine)) (dir : String) (fr : Option ℚ)
        (n1 n2 : Option Nat) (objs : List ObjConfig) (fstart : Option Int)
        (sched : List Nat),
        BT.import_scene fs dir ⟨fr, n1, objs⟩ fstart sched =
          BT.import_scene fs dir ⟨fr, n2, objs⟩ fstart sched) ∧
    frameEndOf (import_scene c6fs "" c6cfg none [0]) = some 2 ∧
    keyframeCounts (import_scene c6fs "" c6cfg none [0]) =
      some [2, 2, 2, 2, 2, 2, 2] :=
  ⟨fun _ _ _ _ _ _ _ _ => rfl, by decide, by decide⟩

/-! ## Claim C7 -/

/-- A manifest that sets `frames` explicitly but contains only a static object
(no monitor path anywhere), over an empty filesystem. -/
def c7fs : String → Option (List RawLine) := fun _ => none

def c7cfg : Config :=
  ⟨some 100, some 1, [⟨"meshS", .static, none, none, none, none, none⟩]⟩

/-- C7 counterexample: when no object has a usable monitor path, the claim
says import proceeds with an implementation-defined default frame count; in
the code the local `frames` is assigned only inside the scan loop, so
`init_anim(frames, …)` raises `NameError` and the import fails — even though
this manifest sets `frames = 100`. -/
theorem C7_counterexample :
    BT.import_scene c7fs "" c7cfg none [0] = .error .nameError := by decide

/-- C7 (amended): the scan itself behaves as claimed — objects are passed
over in manifest order until the first one whose `monitor` key is present and
whose raw path exists, and `get_recording_info` on that file fills the frame
count with `config.get('frames', nb_points / frequency)` — but when **no**
object has a usable monitor path, `import_scene` fails with a `NameError`
(the local `frames` is never assigned) instead of proceeding with a default,
even when the manifest sets `frames`. -/
theorem C7_frame_resolution :
    (∀ (fs : String → Option (List RawLine)) (ff : Option ℚ) (freq : Nat)
        (o : ObjConfig) (rest : List ObjConfig),
        (∀ m, o.monitor = some m → fs m = none) →
        resolveFrames fs ff freq (o :: rest) = resolveFrames fs ff freq rest) ∧
    (∀ (fs : String → Option (List RawLine)) (ff : Option ℚ) (freq : Nat)
        (o : ObjConfig) (rest : List ObjConfig) (m : String)
        (file : List RawLine) (info : RecInfo),
        o.monitor = some m → fs m = some file →
        get_recording_info file = .ok info →
        resolveFrames fs ff freq (o :: rest) =
          .ok (some (ff.getD ((info.nb_points : ℚ) / (freq : ℚ))))) ∧
    (∀ (fs : String → Option (List RawLine)) (dir : String) (config : Config)
        (fstart : Option Int) (sched : List Nat),
        config.objects ≠ [] →
        (∀ o ∈ config.objects, ∀ m, o.monitor = some m → fs m = none) →
        BT.import_scene fs dir config fstart sched = .error .nameError) := by
  refine ⟨?_, ?_, ?_⟩
  · intro fs ff freq o rest h
    cases hm : o.monitor with
    | none => simp only [resolveFrames, hm]
    | some m =>
      have := h m hm
      simp only [resolveFrames, hm, this]
  · intro fs ff freq o rest m file info hm hfs hinfo
    simp only [resolveFrames, hm, hfs, hinfo]
  · intro fs dir config fstart sched hne h
    have hres : ∀ (objs : List ObjConfig),
        (∀ o ∈ objs, ∀ m, o.monitor = some m → fs m = none) →
        resolveFrames fs config.frames 1 objs = .ok none := by
      intro objs
      induction objs with
      | nil => intro _; rfl
      | cons o rest ih =>
        intro hh
        cases hm : o.monitor with
        | none => simp only [resolveFrames, hm];
                  exact ih fun o2 ho2 => hh o2 (List.mem_cons_of_mem o ho2)
        | some m =>
          have := hh o (List.mem_cons_self o rest) m hm
          simp only [resolveFrames, hm, this]
          exact ih fun o2 ho2 => hh o2 (List.mem_cons_of_mem o ho2)
    have hie : config.objects.isEmpty = false := by
      cases hobj : config.objects with
      | nil => exact absurd hobj hne
      | cons a as => rfl
    simp only [import_scene, hie, Bool.false_eq_true, if_false, hres config.objects h]

/-- C7 witness: the general NameError branch instantiated on the concrete
static-only manifest (with an empty completion schedule). -/
theorem C7_frame_resolution_witness :
    BT.import_scene c7fs "" c7cfg none [] = .error .nameError :=
  C7_frame_resolution.2.2 c7fs "" c7cfg none [] (by decide)
    (by
      intro o ho m hm
      simp only [c7cfg, List.mem_cons, List.not_mem_nil, or_false] at ho
      subst ho
      simp at hm)

/-! ## Claim C8 -/

theorem foldl_applyStep_error (results : List (Except PyErr ProcResult))
    (e : ImportError) : results.foldl applyStep (.error e) = .error e := by
  induction results with
  | nil => rfl
  | cons r rest ih => simpa [applyStep] using ih

theorem foldl_applyStep_counts :
    ∀ (results : List (Except PyErr ProcResult)) (objs0 : List AppliedObject)
      (sk0 : Nat) (c0 : List String) (objs : List AppliedObject) (sk : Nat)
      (c1 : List String),
      results.foldl applyStep (.ok (objs0, sk0, c0)) = .ok (objs, sk, c1) →
      objs.length = objs0.length + results.countP isOkB ∧
      sk = sk0 + results.countP fun r => !(isOkB r) := by
  intro results
  induction results with
  | nil =>
    intro objs0 sk0 c0 objs sk c1 h
    simp only [List.foldl_nil] at h
    injection h with h1
    injection h1 with h2 h3
    injection h3 with h4 h5
    subst h2; subst h4
    simp
  | cons r rest ih =>
    intro objs0 sk0 c0 objs sk c1 h
    cases r with
    | error e =>
      simp only [List.foldl_cons, applyStep] at h
      obtain ⟨ha, hb⟩ := ih objs0 (sk0 + 1) c0 objs sk c1 h
      constructor
      · rw [ha]; simp [isOkB, List.countP_cons]
      · rw [hb]; simp [isOkB, List.countP_cons]; omega
    | ok pr =>
      simp only [List.foldl_cons, applyStep] at h
      cases hap : apply_result c0 pr with
      | error e =>
        rw [hap] at h
        rw [foldl_applyStep_error] at h
        exact absurd h (by simp)
      | ok oc =>
        rw [hap] at h
        obtain ⟨ha, hb⟩ := ih (objs0 ++ [oc.1]) sk0 oc.2 objs sk c1 h
        constructor
        · rw [ha]; simp [isOkB, List.countP_cons]; omega
        · rw [hb]; simp [isOkB, List.countP_cons]

/-- Three-object manifest whose middle object's monitor file is missing (both
at its raw path and relative to the config directory). -/
def c8fs : String → Option (List RawLine) := fun s =>
  if s = "a" then some rigidLog1 else if s = "c" then some rigidLog1 else none

def c8cfg : Config :=
  ⟨none, none,
   [⟨"ma", .rigid, none, none, none, none, some "a"⟩,
    ⟨"mb", .rigid, none, none, none, none, some "b"⟩,
    ⟨"mc", .rigid, none, none, none, none, some "c"⟩]⟩

/-- Decidable check of the C8 scenario for one completion order: the import
completes, reports exactly one skip, and applies exactly the meshes of
objects 1 and 3 (in either completion order). -/
def c8check (sched : List Nat) : Bool :=
  match import_scene c8fs "dir8" c8cfg none sched with
  | .ok out =>
    out.skipped == 1 &&
      ((out.applied.map fun o => o.mesh_name) == ["ma", "mc"] ||
       (out.applied.map fun o => o.mesh_name) == ["mc", "ma"])
  | .error _ => false

theorem c8check_sound (sched : List Nat) (h : c8check sched = true) :
    ∃ out, import_scene c8fs "dir8" c8cfg none sched = .ok out ∧
      out.skipped = 1 ∧
      (out.applied.map fun o => o.mesh_name).Perm ["ma", "mc"] := by
  unfold c8check at h
  split at h
  · rename_i out hout
    simp only [Bool.and_eq_true, Bool.or_eq_true, beq_iff_eq] at h
    refine ⟨out, hout, h.1, ?_⟩
    rcases h.2 with h2 | h2 <;> rw [h2] <;>
      first
      | exact List.Perm.refl _
      | exact List.Perm.swap _ _ _
  · exact absurd h (by simp)

/-- Every permutation of `[0, 1, 2]` is one of the six explicit orders. -/
theorem perm3_enum (sched : List Nat) (h : sched.Perm [0, 1, 2]) :
    sched = [0, 1, 2] ∨ sched = [0, 2, 1] ∨ sched = [1, 0, 2] ∨
    sched = [1, 2, 0] ∨ sched = [2, 0, 1] ∨ sched = [2, 1, 0] := by
  have hlen : sched.length = 3 := by simpa using h.length_eq
  obtain ⟨a, b, c, rfl⟩ : ∃ a b c, sched = [a, b, c] := by
    match sched, hlen with
    | [a, b, c], _ => exact ⟨a, b, c, rfl⟩
  have ha : a ∈ [0, 1, 2] := h.mem_iff.mp (by simp)
  have hb : b ∈ [0, 1, 2] := h.mem_iff.mp (by simp)
  have hc : c ∈ [0, 1, 2] := h.mem_iff.mp (by simp)
  have hnd : ([a, b, c] : List Nat).Nodup := h.nodup_iff.mpr (by decide)
  simp only [List.mem_cons, List.not_mem_nil, or_false] at ha hb hc
  simp only [List.nodup_cons, List.mem_cons, List.not_mem_nil, or_false,
    not_or, List.nodup_nil, and_true] at hnd
  rcases ha with rfl | rfl | rfl <;> rcases hb with rfl | rfl | rfl <;>
    rcases hc with rfl | rfl | rfl <;> simp_all

/-- C8: a failure inside a single object's parse-and-prepare task is caught
at the task boundary and only that object is skipped.  Conjunct 1 (general):
whenever the import completes, the number of applied objects is exactly the
number of successfully prepared drained tasks and the skip count is exactly
the number of failed drained tasks — so a failing task never removes another
object.  Conjunct 2 (the claimed scenario): for the three-object manifest
whose 2nd object has a missing monitor file, under **every** completion order
of the three workers the import applies exactly objects 1 and 3 and reports
exactly one skip. -/
theorem C8_partial_failure :
    (∀ (fs : String → Option (List RawLine)) (dir : String) (config : Config)
        (fstart : Option Int) (sched : List Nat) (out : ImportOutcome),
        BT.import_scene fs dir config fstart sched = .ok out →
        out.applied.length =
          (sched.filterMap fun i => (importTasks fs dir 1 config).get? i).countP isOkB ∧
        out.skipped =
          (sched.filterMap fun i => (importTasks fs dir 1 config).get? i).countP
            fun r => !(isOkB r)) ∧
    (∀ sched : List Nat, sched.Perm [0, 1, 2] →
        ∃ out, import_scene c8fs "dir8" c8cfg none sched = .ok out ∧
          out.skipped = 1 ∧
          (out.applied.map fun o => o.mesh_name).Perm ["ma", "mc"]) := by
  constructor
  · intro fs dir config fstart sched out h
    simp only [import_scene] at h
    split at h
    · exact absurd h (by simp)
    · split at h
      · exact absurd h (by simp)
      · exact absurd h (by simp)
      · split at h
        · exact absurd h (by simp)
        · rename_i objsv skv cachev hfold
          cases h
          obtain ⟨ha, hb⟩ := foldl_applyStep_counts _ [] 0 [] objsv skv cachev hfold
          exact ⟨by simpa using ha, by simpa using hb⟩
  · intro sched hperm
    rcases perm3_enum sched hperm with rfl | rfl | rfl | rfl | rfl | rfl <;>
      exact c8check_sound _ (by decide)

/-- C8 witness: the scenario under the completion order 3rd, 1st, 2nd, and
the general count bookkeeping instantiated at an empty drain schedule. -/
theorem C8_partial_failure_witness :
    (∃ out, import_scene c8fs "dir8" c8cfg none [2, 0, 1] = .ok out ∧
      out.skipped = 1 ∧
      (out.applied.map fun o => o.mesh_name).Perm ["ma", "mc"]) ∧
    ((⟨1, 1, [], 0⟩ : ImportOutcome).applied.length =
      (([] : List Nat).filterMap fun i =>
        (importTasks c8fs "dir8" 1 c8cfg).get? i).countP isOkB ∧
     (⟨1, 1, [], 0⟩ : ImportOutcome).skipped =
      (([] : List Nat).filterMap fun i =>
        (importTasks c8fs "dir8" 1 c8cfg).get? i).countP fun r => !(isOkB r)) :=
  ⟨C8_partial_failure.2 [2, 0, 1] (by decide),
   C8_partial_failure.1 c8fs "dir8" c8cfg none [] ⟨1, 1, [], 0⟩ (by decide)⟩

/-! ## Claim C9 -/

/-- The `delta_rotation_euler` of each applied object of a completed import. -/
def deltaRotsOf (res : Except ImportError ImportOutcome) :
    Option (List (Option (List Rad))) :=
  match res with
  | .ok out => some (out.applied.map fun o => o.delta_rotation_euler)
  | .error _ => none

/-- One rigid object; the two manifests differ only in its `rotation`. -/
def c9fs : String → Option (List RawLine) := fun s =>
  if s = "m9" then some rigidLog1 else none

def c9cfgA : Config :=
  ⟨none, none, [⟨"mesh9", .rigid, none, none, none, some [0, 0, 0], some "m9"⟩]⟩

def c9cfgB : Config :=
  ⟨none, none, [⟨"mesh9", .rigid, none, none, none, some [90, 0, 0], some "m9"⟩]⟩

/-- C9 counterexample: the rotation field of a non-static entry is **not**
ignored by the import consumer — `import_scene` assigns it (converted by
`math.radians`) to the object's `delta_rotation_euler`.  Two manifests
identical except for the rigid entry's rotation import successfully but
produce different scene states. -/
theorem C9_counterexample :
    BT.import_scene c9fs "" c9cfgA none [0] ≠ import_scene c9fs "" c9cfgB none [0] ∧
    deltaRotsOf (import_scene c9fs "" c9cfgA none [0]) =
      some [some [radians 0, radians 0, radians 0]] ∧
    deltaRotsOf (import_scene c9fs "" c9cfgB none [0]) =
      some [some [radians 90, radians 0, radians 0]] := by
  refine ⟨by decide, by decide, by decide⟩

/-- C9 (amended): for a non-static object the importer applies the manifest
rotation as the object's delta rotation (`delta_rotation_euler = radians of
rotationDegrees`); everything **else** in the applied state — transform
fields, names, cache interaction, and all animation tracks — is unchanged when
only the rotation differs. -/
theorem C9_rotation_as_delta (r : ProcResult) (rot2 : List ℚ) (cache : List String)
    (h : r.obj_type ≠ .static) :
    ((apply_result cache r).map fun oc =>
        ({ oc.1 with delta_rotation_euler := none }, oc.2)) =
      ((apply_result cache { r with rotation := rot2 }).map fun oc =>
        ({ oc.1 with delta_rotation_euler := none }, oc.2)) ∧
    (∀ (obj : AppliedObject) (c1 : List String),
        apply_result cache r = .ok (obj, c1) →
        obj.delta_rotation_euler = some (r.rotation.map radians)) := by
  constructor
  · cases hr : r.obj_type with
    | static => exact absurd hr h
    | deformable =>
      simp only [apply_result, hr]
      cases r.anim with
      | none => rfl
      | some po =>
        cases hact : add_animation_deformable po.particles_ind po.times po.data <;>
          simp only [hact, Except.map]
    | rigid =>
      simp only [apply_result, hr]
      cases r.anim with
      | none => rfl
      | some po =>
        cases hact : add_animation_rigid po.times po.data <;>
          simp only [hact, Except.map]
  · intro obj c1 hap
    cases hr : r.obj_type with
    | static => exact absurd hr h
    | deformable =>
      simp only [apply_result, hr] at hap
      cases hpo : r.anim with
      | none => simp only [hpo] at hap; exact absurd hap (by simp)
      | some po =>
        simp only [hpo] at hap
        cases hact : add_animation_deformable po.particles_ind po.times po.data with
        | error e => simp only [hact] at hap; exact absurd hap (by simp)
        | ok act => simp only [hact] at hap; cases hap; rfl
    | rigid =>
      simp only [apply_result, hr] at hap
      cases hpo : r.anim with
      | none => simp only [hpo] at hap; exact absurd hap (by simp)
      | some po =>
        simp only [hpo] at hap
        cases hact : add_animation_rigid po.times po.data with
        | error e => simp only [hact] at hap; exact absurd hap (by simp)
        | ok oact => simp only [hact] at hap; cases hap; rfl

/-- C9 witness: the delta-rotation rule instantiated on a concrete rigid
worker result. -/
theorem C9_rotation_as_delta_witness :
    ((apply_result []
        ⟨"m", .rigid, [1, 1, 1], none, [0, 0, 0], [5, 0, 0],
         some ⟨[0], [0], [.rigid [1, 2, 3] [1, 0, 0, 0]]⟩⟩).map fun oc =>
        ({ oc.1 with delta_rotation_euler := none }, oc.2)) =
      ((apply_result []
        ⟨"m", .rigid, [1, 1, 1], none, [0, 0, 0], [90, 0, 0],
         some ⟨[0], [0], [.rigid [1, 2, 3] [1, 0, 0, 0]]⟩⟩).map fun oc =>
        ({ oc.1 with delta_rotation_euler := none }, oc.2)) ∧
    (∀ (obj : AppliedObject) (c1 : List String),
        apply_result []
          ⟨"m", .rigid, [1, 1, 1], none, [0, 0, 0], [5, 0, 0],
           some ⟨[0], [0], [.rigid [1, 2, 3] [1, 0, 0, 0]]⟩⟩ = .ok (obj, c1) →
        obj.delta_rotation_euler = some ([(5 : ℚ), 0, 0].map radians)) :=
  C9_rotation_as_delta
    ⟨"m", .rigid, [1, 1, 1], none, [0, 0, 0], [5, 0, 0],
     some ⟨[0], [0], [.rigid [1, 2, 3] [1, 0, 0, 0]]⟩⟩
    [90, 0, 0] [] (by decide)

/-! ## Claim C10 -/

/-- C10: every object registered through `addExportComponentsToNode` with a
non-static `objectType` is written into the manifest with rotation
`[0.0, 0.0, 0.0]` regardless of the caller's rotation argument, while a
static object carries the caller's rotation — the entry's rotation is
`rotation if objectType == 'static' else [0, 0, 0]`. -/
theorem C10_exporter_zeroes_rotation :
    ∀ (objExists : String → Bool) (outputDir defaultPrefixPath name : String)
      (objectType : ObjType) (indices : Option (List Int))
      (topologyVertexCount : Option Nat) (meshFilename : Option String)
      (scale translation rotation : List ℚ) (entry : ExportEntry),
      addExportComponentsToNode objExists outputDir defaultPrefixPath name objectType
        indices topologyVertexCount meshFilename scale translation rotation =
        .ok entry →
      entry.rotation = (if objectType = .static then rotation else [0, 0, 0]) := by
  intro oe od dp nm ot ind tvc mf sc tr rot entry h
  simp only [addExportComponentsToNode] at h
  split at h
  · exact absurd h (by simp)
  all_goals
    (repeat' split at h) <;> cases h <;> simp_all [addObjectConfig]

/-- C10 witness: a rigid registration with caller rotation `[30, 40, 50]`
lands in the manifest with rotation `[0, 0, 0]`. -/
theorem C10_exporter_zeroes_rotation_witness :
    (⟨"mf", .rigid, "n", [1, 1, 1], [0, 0, 0], [0, 0, 0],
        some (pathJoin "out" "n_x.txt")⟩ : ExportEntry).rotation =
      (if ObjType.rigid = .static then [30, 40, 50] else [0, 0, 0]) :=
  C10_exporter_zeroes_rotation (fun _ => false) "out" "pre" "n" .rigid (some [0])
    none (some "mf") [1, 1, 1] [0, 0, 0] [30, 40, 50]
    ⟨"mf", .rigid, "n", [1, 1, 1], [0, 0, 0], [0, 0, 0],
     some (pathJoin "out" "n_x.txt")⟩
    (by decide)

end BT
